import Mathlib

/-!
Shallow embedding of `src/core/utils/font_family_util/font_family_util.cpp`
(the yasb font-family name-mapping utility).

The program builds a bidirectional mapping between GDI (legacy) and
DirectWrite (modern) font-family names.  Platform calls (DirectWrite,
GetUserDefaultLocaleName, heap allocation, text transcoding) are the
environment: each family handle carries a description of what the platform
calls return for it, including explicit fault flags for HRESULT failures,
and the documented DirectWrite behavior of `IDWriteLocalizedStrings` is
modelled over a concrete list of (locale, name) pairs.

The two global `std::unordered_map`s are modelled extensionally as
functions `String → Option String`; `operator[]` insertion is a pointwise
function update (insert-or-assign).  C++ functions that mutate or read the
global tables are embedded in explicit state-passing style on a `Tables`
value.  The catch-all exception handling in the two lookup functions is
modelled with a `fault` flag: `true` means an unexpected exception was
raised while reading the table, which the C++ code catches and turns into
a `nullptr` (here `none`) result.
-/

namespace FontFamilyUtil

/-- A string-keyed table, modelling one of the two global
`std::unordered_map<std::string, std::string>` objects extensionally. -/
def StrMap : Type := String → Option String

/-- The empty table: the state of each global map at process start. -/
def StrMap.empty : StrMap := fun _ => none

/-- Insertion via `operator[]` (insert-or-assign): the new value replaces any
earlier value stored at the same key; all other keys are untouched. -/
def StrMap.insert (m : StrMap) (k v : String) : StrMap :=
  fun q => if q = k then some v else m q

/-- The pair of global tables `gdi_to_directwrite` / `directwrite_to_gdi`. -/
structure Tables where
  gdi_to_directwrite : StrMap
  directwrite_to_gdi : StrMap

/-- Both tables empty: the global state at process start. -/
def emptyTables : Tables := ⟨StrMap.empty, StrMap.empty⟩

/-- The constant `UINT32_MAX`, the index value `IDWriteLocalizedStrings::FindLocaleName`
stores when the requested locale is absent from the collection. -/
def UINT32_MAX : Nat := 4294967295

/-- Platform behavior of one `IDWriteLocalizedStrings` object: its concrete
list of (locale, name) pairs plus a fault flag for each method the source
calls on it (`FindLocaleName`, `GetStringLength`, `GetString`), and one for
the `new wchar_t[...]` allocation in `get_family_name_of_cur_locale`. -/
structure LocalizedStrings where
  entries : List (String × String)
  findFails : Bool
  lengthFails : Bool
  allocFails : Bool
  getStringFails : Bool

/-- Documented behavior of `IDWriteLocalizedStrings::FindLocaleName`: on a
match it stores the zero-based index of the matching pair and `TRUE`; when
no pair has the requested locale it stores `UINT32_MAX` and `FALSE` (and
still returns a success HRESULT). -/
def findLocaleName (entries : List (String × String)) (loc : String) : Nat × Bool :=
  match entries.findIdx? (fun p => p.1 == loc) with
  | some i => (i, true)
  | none => (UINT32_MAX, false)

/-- Documented behavior of `IDWriteLocalizedStrings::GetStringLength`: the
length of the string at the given index, failing (`none`) when the index is
out of range. -/
def getStringLength (entries : List (String × String)) (i : Nat) : Option Nat :=
  (entries[i]?).map (fun p => p.2.length)

/-- Documented behavior of `IDWriteLocalizedStrings::GetString`: copies the
string at the given index into a buffer of `bufSize` characters, failing
when the index is out of range or the buffer cannot hold the string plus
its null terminator. -/
def getString (entries : List (String × String)) (i : Nat) (bufSize : Nat) : Option String :=
  match entries[i]? with
  | some p => if p.2.length < bufSize then some p.2 else none
  | none => none

/-- Platform behavior of one `IDWriteFontFamily` handle, as observed by the
calls the source makes while resolving it: a fault flag for
`GetFamilyNames`, the localized-strings object it yields, fault flags for
`GetFirstMatchingFont`, `GetGdiInterop` and `ConvertFontToLOGFONT`, the
`lfFaceName` field of the produced `LOGFONTW`, and a flag for the
`wstring_convert::to_bytes` call on that face name (which the source wraps
in a try/catch). -/
structure FontFamily where
  getFamilyNamesFails : Bool
  names : LocalizedStrings
  firstMatchingFontFails : Bool
  getGdiInteropFails : Bool
  convertFails : Bool
  gdiFaceName : String
  gdiTranscodeFails : Bool

/-- The locale tag the source ends up querying with: the user default
locale, or the fixed fallback `"en_us"` that the source copies into the
buffer when `GetUserDefaultLocaleName` fails. -/
def resolvedLocale (userLocale : Option String) : String :=
  match userLocale with
  | none => "en_us"
  | some l => l

/-- Embedding of `get_family_name_of_cur_locale`: resolve the family's display name in
the current user locale.  `userLocale = none` models a failing
`GetUserDefaultLocaleName` call, in which case the source copies the fixed
string `"en_us"` into the locale buffer and continues.  Each subsequent
platform step returns `none` on failure, mirroring the early returns of
the source. -/
def get_family_name_of_cur_locale (userLocale : Option String) (ff : FontFamily) :
    Option String :=
  let locale_name : String := resolvedLocale userLocale
  if ff.getFamilyNamesFails then none else
  let family_names := ff.names
  if family_names.findFails then none else
  let family_name_index := (findLocaleName family_names.entries locale_name).1
  if family_names.lengthFails then none else
  match getStringLength family_names.entries family_name_index with
  | none => none
  | some family_name_len =>
    if family_names.allocFails then none else
    if family_names.getStringFails then none else
    match getString family_names.entries family_name_index (family_name_len + 1) with
    | none => none
    | some s => some s

/-- Embedding of `get_gdi_and_directwrite_family_name`: resolve the (gdi, directwrite)
name pair for one family, aborting on the failure of any step. -/
def get_gdi_and_directwrite_family_name (userLocale : Option String) (ff : FontFamily) :
    Option (String × String) :=
  match get_family_name_of_cur_locale userLocale ff with
  | none => none
  | some directwrite_family_name =>
    if ff.firstMatchingFontFails then none else
    if ff.getGdiInteropFails then none else
    if ff.convertFails then none else
    if ff.gdiTranscodeFails then none else
    some (ff.gdiFaceName, directwrite_family_name)

/-- Platform behavior observed by one `init()` call: the user locale
(`none` models a failing `GetUserDefaultLocaleName`), fault flags for
`DWriteCreateFactory` and `GetSystemFontCollection`, and the enumerated
family handles in index order (`none` at an index models a failing
`GetFontFamily` call there). -/
structure Platform where
  userLocale : Option String
  factoryFails : Bool
  collectionFails : Bool
  families : List (Option FontFamily)

/-- The two insertions a successful resolution performs in one step:
`gdi_to_directwrite[gdi] = dw; directwrite_to_gdi[dw] = gdi`. -/
def insertPair (t : Tables) (gdi dw : String) : Tables :=
  ⟨t.gdi_to_directwrite.insert gdi dw, t.directwrite_to_gdi.insert dw gdi⟩

/-- The enumeration loop of `init()`: for each index, a failing
`GetFontFamily` or a failing name resolution is logged and skipped; a
successful resolution inserts the swapped pair into both tables. -/
def initLoop (userLocale : Option String) (fams : List (Option FontFamily)) (t : Tables) :
    Tables :=
  match fams with
  | [] => t
  | off :: rest =>
    match off with
    | none => initLoop userLocale rest t
    | some ff =>
      match get_gdi_and_directwrite_family_name userLocale ff with
      | none => initLoop userLocale rest t
      | some p => initLoop userLocale rest (insertPair t p.1 p.2)

/-- Embedding of `init()`: returns `false` and leaves the tables untouched when factory
creation or system-font-collection retrieval fails; otherwise runs the
enumeration loop and returns `true`. -/
def init (p : Platform) (t : Tables) : Bool × Tables :=
  if p.factoryFails then (false, t) else
  if p.collectionFails then (false, t) else
  (true, initLoop p.userLocale p.families t)

/-- Embedding of `cleanup()`: an intentional no-op on the global tables. -/
def cleanup (t : Tables) : Tables := t

/-- Embedding of `get_gdi_family_from_directwrite`: reads `directwrite_to_gdi.at(key)`.
A missing key raises `std::out_of_range`, caught and turned into `nullptr`
(`none`); `fault = true` models any other exception raised while reading
the table, which the catch-all handler logs before the function returns
`nullptr`.  The table state is returned unchanged. -/
def get_gdi_family_from_directwrite (t : Tables) (k : String) (fault : Bool) :
    Option String × Tables :=
  if fault then (none, t) else (t.directwrite_to_gdi k, t)

/-- Embedding of `get_directwrite_family_from_gdi`: reads `gdi_to_directwrite.at(key)`;
same error behavior as `get_gdi_family_from_directwrite`. -/
def get_directwrite_family_from_gdi (t : Tables) (k : String) (fault : Bool) :
    Option String × Tables :=
  if fault then (none, t) else (t.gdi_to_directwrite k, t)

/-- The pair a single enumerated slot contributes to the tables: `none`
when the handle retrieval failed or the resolution pipeline failed. -/
def familyContributes (userLocale : Option String) (off : Option FontFamily) :
    Option (String × String) :=
  off.bind (get_gdi_and_directwrite_family_name userLocale)

/-- The (gdi, directwrite) pairs successfully resolved during one
enumeration, in enumeration order. -/
def contribs (userLocale : Option String) (fams : List (Option FontFamily)) :
    List (String × String) :=
  fams.filterMap (familyContributes userLocale)

/-- Folding a list of resolved pairs into the tables, in order. -/
def applyContribs (cs : List (String × String)) (t : Tables) : Tables :=
  match cs with
  | [] => t
  | c :: rest => applyContribs rest (insertPair t c.1 c.2)

/-- The value the last resolved pair with gdi name `k` wrote into
`gdi_to_directwrite`, if any pair in the list has that gdi name. -/
def lastGdiValue (cs : List (String × String)) (k : String) : Option String :=
  match cs with
  | [] => none
  | c :: rest =>
    match lastGdiValue rest k with
    | some v => some v
    | none => if c.1 == k then some c.2 else none

/-- The value the last resolved pair with directwrite name `k` wrote into
`directwrite_to_gdi`, if any pair in the list has that directwrite name. -/
def lastDwValue (cs : List (String × String)) (k : String) : Option String :=
  match cs with
  | [] => none
  | c :: rest =>
    match lastDwValue rest k with
    | some v => some v
    | none => if c.2 == k then some c.1 else none

/-- The cross-table invariant: every value stored in `gdi_to_directwrite`
occurs as a key of `directwrite_to_gdi`, and conversely. -/
def crossInv (t : Tables) : Prop :=
  (∀ k v, t.gdi_to_directwrite k = some v → t.directwrite_to_gdi v ≠ none) ∧
  (∀ k v, t.directwrite_to_gdi k = some v → t.gdi_to_directwrite v ≠ none)

/-- A `LocalizedStrings` object on which every platform call succeeds. -/
def okStrings (es : List (String × String)) : LocalizedStrings :=
  ⟨es, false, false, false, false⟩

/-- A family handle on which every platform call succeeds, with the given
localized-name entries and GDI face name. -/
def okFamily (es : List (String × String)) (face : String) : FontFamily :=
  ⟨false, okStrings es, false, false, false, face, false⟩

/-- Mocked family A of the spec's concrete scenario: resolves to legacy
`"Arial"` / modern `"Arial"`. -/
def familyA : FontFamily := okFamily [("en_us", "Arial")] "Arial"

/-- Mocked family B of the spec's concrete scenario: resolves to legacy
`"Arial"` / modern `"Arial Black"`. -/
def familyB : FontFamily := okFamily [("en_us", "Arial Black")] "Arial"

/-- The mocked two-family platform of the spec's concrete scenario, with
family B enumerated (hence resolved) last. -/
def arialPlatform : Platform :=
  ⟨some "en_us", false, false, [some familyA, some familyB]⟩

/-- A family handle on which `GetFamilyNames` fails: its resolution
pipeline fails at the first step. -/
def badFamily : FontFamily := ⟨true, okStrings [], false, false, false, "X", false⟩

/-- A platform whose two fatal checks pass but where handle retrieval fails
at index 0 and resolution fails at index 1. -/
def skipPlatform : Platform := ⟨none, false, false, [none, some badFamily]⟩

/-! ### Helper lemmas -/

theorem StrMap.insert_self (m : StrMap) (k v : String) : m.insert k v k = some v := by
  simp [StrMap.insert]

theorem StrMap.insert_ne_none (m : StrMap) (k v q : String) (h : m q ≠ none) :
    m.insert k v q ≠ none := by
  by_cases hq : q = k <;> simp [StrMap.insert, hq, h]

theorem contribs_cons_none_skip (uL : Option String) (off : Option FontFamily)
    (rest : List (Option FontFamily)) (h : familyContributes uL off = none) :
    contribs uL (off :: rest) = contribs uL rest := by
  simp [contribs, List.filterMap_cons, h]

theorem contribs_cons_some (uL : Option String) (off : Option FontFamily)
    (rest : List (Option FontFamily)) (c : String × String)
    (h : familyContributes uL off = some c) :
    contribs uL (off :: rest) = c :: contribs uL rest := by
  simp [contribs, List.filterMap_cons, h]

theorem initLoop_eq_applyContribs (uL : Option String) (fams : List (Option FontFamily))
    (t : Tables) : initLoop uL fams t = applyContribs (contribs uL fams) t := by
  induction fams generalizing t with
  | nil => rfl
  | cons off rest ih =>
    cases off with
    | none =>
      rw [initLoop, ih, contribs_cons_none_skip uL none rest rfl]
    | some ff =>
      cases h : get_gdi_and_directwrite_family_name uL ff with
      | none =>
        rw [initLoop, h, ih, contribs_cons_none_skip uL (some ff) rest h]
      | some p =>
        have hstep : initLoop uL (some ff :: rest) t = initLoop uL rest (insertPair t p.1 p.2) := by
          rw [initLoop, h]
        rw [hstep, ih, contribs_cons_some uL (some ff) rest p h, applyContribs]

theorem applyContribs_gdi (cs : List (String × String)) (t : Tables) (k : String) :
    (applyContribs cs t).gdi_to_directwrite k =
      match lastGdiValue cs k with
      | some v => some v
      | none => t.gdi_to_directwrite k := by
  induction cs generalizing t with
  | nil => rfl
  | cons c rest ih =>
    rw [applyContribs, ih, lastGdiValue]
    cases lastGdiValue rest k with
    | some v => rfl
    | none =>
      by_cases hk : k = c.1
      · subst hk
        simp [insertPair, StrMap.insert]
      · have hk' : ¬c.1 = k := fun hsym => hk hsym.symm
        simp [insertPair, StrMap.insert, hk, hk']

theorem applyContribs_dw (cs : List (String × String)) (t : Tables) (k : String) :
    (applyContribs cs t).directwrite_to_gdi k =
      match lastDwValue cs k with
      | some v => some v
      | none => t.directwrite_to_gdi k := by
  induction cs generalizing t with
  | nil => rfl
  | cons c rest ih =>
    rw [applyContribs, ih, lastDwValue]
    cases lastDwValue rest k with
    | some v => rfl
    | none =>
      by_cases hk : k = c.2
      · subst hk
        simp [insertPair, StrMap.insert]
      · have hk' : ¬c.2 = k := fun hsym => hk hsym.symm
        simp [insertPair, StrMap.insert, hk, hk']

theorem lastGdiValue_append (a b : List (String × String)) (k : String) :
    lastGdiValue (a ++ b) k =
      match lastGdiValue b k with
      | some v => some v
      | none => lastGdiValue a k := by
  induction a with
  | nil =>
    rw [List.nil_append]
    cases h : lastGdiValue b k <;> simp [h, lastGdiValue]
  | cons c rest ih =>
    rw [List.cons_append, lastGdiValue, ih, lastGdiValue]
    cases lastGdiValue b k <;> cases lastGdiValue rest k <;> rfl

theorem lastDwValue_append (a b : List (String × String)) (k : String) :
    lastDwValue (a ++ b) k =
      match lastDwValue b k with
      | some v => some v
      | none => lastDwValue a k := by
  induction a with
  | nil =>
    rw [List.nil_append]
    cases h : lastDwValue b k <;> simp [h, lastDwValue]
  | cons c rest ih =>
    rw [List.cons_append, lastDwValue, ih, lastDwValue]
    cases lastDwValue b k <;> cases lastDwValue rest k <;> rfl

theorem lastGdiValue_eq_none (cs : List (String × String)) (k : String)
    (h : ∀ c ∈ cs, c.1 ≠ k) : lastGdiValue cs k = none := by
  induction cs with
  | nil => rfl
  | cons c rest ih =>
    have hrest := ih (fun c' hc' => h c' (List.mem_cons_of_mem _ hc'))
    rw [lastGdiValue, hrest]
    simp [h c (List.mem_cons_self c rest)]

theorem lastDwValue_eq_none (cs : List (String × String)) (k : String)
    (h : ∀ c ∈ cs, c.2 ≠ k) : lastDwValue cs k = none := by
  induction cs with
  | nil => rfl
  | cons c rest ih =>
    have hrest := ih (fun c' hc' => h c' (List.mem_cons_of_mem _ hc'))
    rw [lastDwValue, hrest]
    simp [h c (List.mem_cons_self c rest)]

theorem contribs_append (uL : Option String) (a b : List (Option FontFamily)) :
    contribs uL (a ++ b) = contribs uL a ++ contribs uL b := by
  simp [contribs, List.filterMap_append]

theorem init_snd (p : Platform) (t : Tables) (hfac : p.factoryFails = false)
    (hcol : p.collectionFails = false) :
    (init p t).2 = applyContribs (contribs p.userLocale p.families) t := by
  simp [init, hfac, hcol, initLoop_eq_applyContribs]

theorem crossInv_insertPair (t : Tables) (g d : String) (h : crossInv t) :
    crossInv (insertPair t g d) := by
  obtain ⟨h1, h2⟩ := h
  constructor
  · intro k v hkv
    by_cases hk : k = g
    · have hv : v = d := by
        rw [hk] at hkv
        exact (by simpa [insertPair, StrMap.insert] using hkv : d = v).symm
      subst hv
      simp [insertPair, StrMap.insert]
    · have hv : t.gdi_to_directwrite k = some v := by
        simpa [insertPair, StrMap.insert, hk] using hkv
      exact StrMap.insert_ne_none _ _ _ _ (h1 k v hv)
  · intro k v hkv
    by_cases hk : k = d
    · have hv : v = g := by
        rw [hk] at hkv
        exact (by simpa [insertPair, StrMap.insert] using hkv : g = v).symm
      subst hv
      simp [insertPair, StrMap.insert]
    · have hv : t.directwrite_to_gdi k = some v := by
        simpa [insertPair, StrMap.insert, hk] using hkv
      exact StrMap.insert_ne_none _ _ _ _ (h2 k v hv)

theorem crossInv_applyContribs (cs : List (String × String)) (t : Tables) (h : crossInv t) :
    crossInv (applyContribs cs t) := by
  induction cs generalizing t with
  | nil => exact h
  | cons c rest ih => exact ih _ (crossInv_insertPair t c.1 c.2 h)

theorem crossInv_empty : crossInv emptyTables := by
  constructor <;> intro k v hkv <;> simp [emptyTables, StrMap.empty] at hkv

/-! ### Claim theorems -/

/-- C1: In `get_family_name_of_cur_locale`, for every family whose table of
localized name variants contains no entry matching the resolved locale tag,
resolution fails for that family (returns `none`), with no fallback to any
other variant.  (Per the documented platform behavior, the collection holds
at most `UINT32_MAX` entries; with no match, `FindLocaleName` reports index
`UINT32_MAX`, which the source uses unchecked, and the subsequent
`GetStringLength` call fails on the out-of-range index.) -/
theorem C1_no_locale_match_fails (userLocale : Option String) (ff : FontFamily)
    (hsize : ff.names.entries.length ≤ UINT32_MAX)
    (hnomatch : ∀ p ∈ ff.names.entries, p.1 ≠ resolvedLocale userLocale) :
    get_family_name_of_cur_locale userLocale ff = none := by
  have hfind : ff.names.entries.findIdx? (fun p => p.1 == resolvedLocale userLocale) = none := by
    rw [List.findIdx?_eq_none_iff]
    intro x hx
    simp [hnomatch x hx]
  have hlen : getStringLength ff.names.entries UINT32_MAX = none := by
    rw [getStringLength, List.getElem?_eq_none hsize]
    rfl
  simp only [get_family_name_of_cur_locale, findLocaleName, hfind, hlen]
  split
  · rfl
  · split
    · rfl
    · split
      · rfl
      · rfl

/-- C1 witness: the user locale is "de_de" and the family only carries an
"en_us" variant, so resolution fails. -/
theorem C1_no_locale_match_fails_witness :
    (okFamily [("en_us", "Arial")] "Arial").names.entries.length ≤ UINT32_MAX ∧
    (∀ p ∈ (okFamily [("en_us", "Arial")] "Arial").names.entries,
      p.1 ≠ resolvedLocale (some "de_de")) ∧
    get_family_name_of_cur_locale (some "de_de") (okFamily [("en_us", "Arial")] "Arial") =
      none := by
  refine ⟨by decide, by decide, ?_⟩
  exact C1_no_locale_match_fails (some "de_de") (okFamily [("en_us", "Arial")] "Arial")
    (by decide) (by decide)

/-- C3: If DirectWrite factory creation or system font-collection retrieval
fails, `init()` returns `false` and the tables are exactly the pre-call
tables: no entry is inserted or removed on this path. -/
theorem C3_fatal_failure_preserves_tables (p : Platform) (t : Tables)
    (h : p.factoryFails = true ∨ p.collectionFails = true) :
    init p t = (false, t) := by
  rcases h with h | h <;> simp [init, h]

/-- C3 witness: a platform whose factory creation fails. -/
theorem C3_fatal_failure_preserves_tables_witness :
    Platform.factoryFails ⟨none, true, false, []⟩ = true ∧
    init ⟨none, true, false, []⟩ emptyTables = (false, emptyTables) :=
  ⟨rfl, C3_fatal_failure_preserves_tables ⟨none, true, false, []⟩ emptyTables (Or.inl rfl)⟩

/-- C5: For every key absent from the corresponding table, both lookup
functions return the null sentinel (`none`) rather than propagating the
`std::out_of_range`; and any other failure raised while reading a table
(`fault = true`) is caught and also yields the null sentinel, for any table
state and key. -/
theorem C5_lookup_errors_yield_null (t : Tables) (k : String) (fault : Bool)
    (hdw : t.directwrite_to_gdi k = none) (hgdi : t.gdi_to_directwrite k = none) :
    ((get_gdi_family_from_directwrite t k fault).1 = none ∧
     (get_directwrite_family_from_gdi t k fault).1 = none) ∧
    (∀ u : Tables, ∀ q : String,
      (get_gdi_family_from_directwrite u q true).1 = none ∧
      (get_directwrite_family_from_gdi u q true).1 = none) := by
  constructor
  · cases fault <;>
      simp [get_gdi_family_from_directwrite, get_directwrite_family_from_gdi, hdw, hgdi]
  · intro u q
    exact ⟨rfl, rfl⟩

/-- C5 witness: on empty tables, looking up "Arial" misses in both
directions and returns the null sentinel. -/
theorem C5_lookup_errors_yield_null_witness :
    emptyTables.directwrite_to_gdi "Arial" = none ∧
    emptyTables.gdi_to_directwrite "Arial" = none ∧
    (get_gdi_family_from_directwrite emptyTables "Arial" false).1 = none ∧
    (get_directwrite_family_from_gdi emptyTables "Arial" false).1 = none := by
  refine ⟨rfl, rfl, ?_, ?_⟩
  · exact (C5_lookup_errors_yield_null emptyTables "Arial" false rfl rfl).1.1
  · exact (C5_lookup_errors_yield_null emptyTables "Arial" false rfl rfl).1.2

/-- C6: Per-family failures are non-fatal: a family whose handle retrieval
or resolution fails contributes zero entries and enumeration continues with
the remaining indices (the loop computes exactly what it computes with that
slot removed); `init()` returns `true` whenever the two fatal checks pass,
and when every family fails the tables are returned unchanged with result
`true`. -/
theorem C6_per_family_failures_nonfatal (p : Platform) (t : Tables)
    (hfac : p.factoryFails = false) (hcol : p.collectionFails = false) :
    (init p t).1 = true ∧
    (∀ pre bad post, p.families = pre ++ bad :: post →
      familyContributes p.userLocale bad = none →
      initLoop p.userLocale p.families t = initLoop p.userLocale (pre ++ post) t) ∧
    ((∀ f ∈ p.families, familyContributes p.userLocale f = none) →
      init p t = (true, t)) := by
  refine ⟨by simp [init, hfac, hcol], ?_, ?_⟩
  · intro pre bad post hsplit hbad
    rw [hsplit, initLoop_eq_applyContribs, initLoop_eq_applyContribs,
      contribs_append, contribs_append, contribs_cons_none_skip p.userLocale bad post hbad]
  · intro hall
    have hnil : contribs p.userLocale p.families = [] := by
      simp only [contribs, List.filterMap_eq_nil_iff]
      exact hall
    simp [init, hfac, hcol, initLoop_eq_applyContribs, hnil, applyContribs]

/-- C6 witness: a two-slot platform where handle retrieval fails at index 0
and resolution fails at index 1 (GetFamilyNames fails); init returns true
and the tables are untouched. -/
theorem C6_per_family_failures_nonfatal_witness :
    skipPlatform.factoryFails = false ∧ skipPlatform.collectionFails = false ∧
    (init skipPlatform emptyTables).1 = true ∧
    initLoop skipPlatform.userLocale skipPlatform.families emptyTables =
      initLoop skipPlatform.userLocale ([] ++ [some badFamily]) emptyTables ∧
    init skipPlatform emptyTables = (true, emptyTables) := by
  refine ⟨rfl, rfl, ?_, ?_, ?_⟩
  · exact (C6_per_family_failures_nonfatal skipPlatform emptyTables rfl rfl).1
  · exact (C6_per_family_failures_nonfatal skipPlatform emptyTables rfl rfl).2.1 []
      none [some badFamily] rfl rfl
  · exact (C6_per_family_failures_nonfatal skipPlatform emptyTables rfl rfl).2.2 (by decide)

/-- C7: If the platform call retrieving the current user locale fails, the
source substitutes the fixed fallback tag "en_us" and continues resolving
the family: the resolution result is exactly the result of resolving with
the fallback locale, so this failure alone never turns the result into
`none`. -/
theorem C7_locale_failure_uses_fallback (ff : FontFamily) :
    get_family_name_of_cur_locale none ff = get_family_name_of_cur_locale (some "en_us") ff ∧
    resolvedLocale none = "en_us" :=
  ⟨rfl, rfl⟩

/-- C8: `cleanup()` leaves both tables unchanged: any lookup performed
after `cleanup()` returns exactly what the same lookup returned before. -/
theorem C8_cleanup_is_noop (t : Tables) (k : String) (fault : Bool) :
    get_gdi_family_from_directwrite (cleanup t) k fault =
      get_gdi_family_from_directwrite t k fault ∧
    get_directwrite_family_from_gdi (cleanup t) k fault =
      get_directwrite_family_from_gdi t k fault ∧
    cleanup t = t :=
  ⟨rfl, rfl, rfl⟩

/-- C10: Both lookups are read-only: they return the tables unchanged, so
repeating the same lookup on the state a lookup returns yields the same
result. -/
theorem C10_lookups_read_only (t : Tables) (k : String) (fault : Bool) :
    (get_gdi_family_from_directwrite t k fault).2 = t ∧
    (get_directwrite_family_from_gdi t k fault).2 = t ∧
    (get_gdi_family_from_directwrite (get_gdi_family_from_directwrite t k fault).2 k fault).1 =
      (get_gdi_family_from_directwrite t k fault).1 ∧
    (get_directwrite_family_from_gdi (get_directwrite_family_from_gdi t k fault).2 k fault).1 =
      (get_directwrite_family_from_gdi t k fault).1 := by
  cases fault <;> exact ⟨rfl, rfl, rfl, rfl⟩

/-- C2 counterexample: in the spec's own two-family Arial scenario both
resolutions succeed; family A succeeds with pair ("Arial", "Arial") and
`init()` returns true, yet `get_directwrite_family_from_gdi("Arial")`
returns "Arial Black" — family B's later insertion overwrote the key — and
not "Arial", so the claimed round trip fails for family A. -/
theorem C2_counterexample :
    arialPlatform.families = [some familyA, some familyB] ∧
    get_gdi_and_directwrite_family_name arialPlatform.userLocale familyA =
      some ("Arial", "Arial") ∧
    (init arialPlatform emptyTables).1 = true ∧
    (get_directwrite_family_from_gdi (init arialPlatform emptyTables).2 "Arial" false).1 =
      some "Arial Black" ∧
    (get_directwrite_family_from_gdi (init arialPlatform emptyTables).2 "Arial" false).1 ≠
      some "Arial" :=
  ⟨rfl, by decide, by decide, by decide, by decide⟩

/-- C2 (amended): for every family whose whole resolution pipeline succeeds
with pair (legacy, modern) and such that no family enumerated after it
successfully resolves to a pair whose gdi name is `legacy` or whose
directwrite name is `modern`, after `init()` returns true,
`get_directwrite_family_from_gdi legacy` returns `modern` and
`get_gdi_family_from_directwrite modern` returns `legacy`. -/
theorem C2_roundtrip_for_unshadowed_families (p : Platform) (t : Tables)
    (pre post : List (Option FontFamily)) (ff : FontFamily) (legacy modern : String)
    (hfac : p.factoryFails = false) (hcol : p.collectionFails = false)
    (hsplit : p.families = pre ++ some ff :: post)
    (hres : get_gdi_and_directwrite_family_name p.userLocale ff = some (legacy, modern))
    (hng : ∀ c ∈ contribs p.userLocale post, c.1 ≠ legacy)
    (hnd : ∀ c ∈ contribs p.userLocale post, c.2 ≠ modern) :
    (init p t).1 = true ∧
    (get_directwrite_family_from_gdi (init p t).2 legacy false).1 = some modern ∧
    (get_gdi_family_from_directwrite (init p t).2 modern false).1 = some legacy := by
  have hcs : contribs p.userLocale p.families =
      contribs p.userLocale pre ++ (legacy, modern) :: contribs p.userLocale post := by
    rw [hsplit, contribs_append,
      contribs_cons_some p.userLocale (some ff) post (legacy, modern) hres]
  have hgdi : lastGdiValue (contribs p.userLocale p.families) legacy = some modern := by
    have h2 : lastGdiValue ((legacy, modern) :: contribs p.userLocale post) legacy =
        some modern := by
      rw [lastGdiValue, lastGdiValue_eq_none _ _ hng]
      simp
    rw [hcs, lastGdiValue_append, h2]
  have hdw : lastDwValue (contribs p.userLocale p.families) modern = some legacy := by
    have h2 : lastDwValue ((legacy, modern) :: contribs p.userLocale post) modern =
        some legacy := by
      rw [lastDwValue, lastDwValue_eq_none _ _ hnd]
      simp
    rw [hcs, lastDwValue_append, h2]
  refine ⟨by simp [init, hfac, hcol], ?_, ?_⟩
  · have hval : (init p t).2.gdi_to_directwrite legacy = some modern := by
      rw [init_snd p t hfac hcol, applyContribs_gdi, hgdi]
    simpa [get_directwrite_family_from_gdi] using hval
  · have hval : (init p t).2.directwrite_to_gdi modern = some legacy := by
      rw [init_snd p t hfac hcol, applyContribs_dw, hdw]
    simpa [get_gdi_family_from_directwrite] using hval

/-- C2 witness: family B is the last enumerated family of the Arial
scenario; nothing after it collides, so its pair round-trips. -/
theorem C2_roundtrip_for_unshadowed_families_witness :
    arialPlatform.families = [some familyA] ++ some familyB :: [] ∧
    get_gdi_and_directwrite_family_name arialPlatform.userLocale familyB =
      some ("Arial", "Arial Black") ∧
    (init arialPlatform emptyTables).1 = true ∧
    (get_directwrite_family_from_gdi (init arialPlatform emptyTables).2 "Arial" false).1 =
      some "Arial Black" ∧
    (get_gdi_family_from_directwrite (init arialPlatform emptyTables).2 "Arial Black" false).1 =
      some "Arial" := by
  have h := C2_roundtrip_for_unshadowed_families arialPlatform emptyTables
    [some familyA] [] familyB "Arial" "Arial Black" rfl rfl rfl (by decide)
    (by intro c hc; exact absurd hc (List.not_mem_nil c))
    (by intro c hc; exact absurd hc (List.not_mem_nil c))
  exact ⟨rfl, by decide, h.1, h.2.1, h.2.2⟩

/-- C4: Insertion into either table is last-write-wins: when several
successful resolutions (within one `init()` call, or across two calls)
write the same key, the table maps that key to the most recent write's
value; no key ever present in a table is removed by a later `init()` call;
and in the two-family Arial scenario `directwrite_to_gdi["Arial Black"] =
"Arial"` while `gdi_to_directwrite["Arial"]` is the modern name resolved
last, "Arial Black". -/
theorem C4_last_write_wins (p : Platform) (t : Tables) (k v : String)
    (hfac : p.factoryFails = false) (hcol : p.collectionFails = false) :
    (lastGdiValue (contribs p.userLocale p.families) k = some v →
      (init p t).2.gdi_to_directwrite k = some v) ∧
    (lastDwValue (contribs p.userLocale p.families) k = some v →
      (init p t).2.directwrite_to_gdi k = some v) ∧
    (∀ p0 : Platform, lastGdiValue (contribs p.userLocale p.families) k = some v →
      (init p (init p0 t).2).2.gdi_to_directwrite k = some v) ∧
    (∀ q : String, t.gdi_to_directwrite q ≠ none →
      (init p t).2.gdi_to_directwrite q ≠ none) ∧
    (∀ q : String, t.directwrite_to_gdi q ≠ none →
      (init p t).2.directwrite_to_gdi q ≠ none) ∧
    ((init arialPlatform emptyTables).2.directwrite_to_gdi "Arial Black" = some "Arial" ∧
     (init arialPlatform emptyTables).2.gdi_to_directwrite "Arial" = some "Arial Black") := by
  refine ⟨?_, ?_, ?_, ?_, ?_, by decide, by decide⟩
  · intro h
    rw [init_snd p t hfac hcol, applyContribs_gdi, h]
  · intro h
    rw [init_snd p t hfac hcol, applyContribs_dw, h]
  · intro p0 h
    rw [init_snd p (init p0 t).2 hfac hcol, applyContribs_gdi, h]
  · intro q hq
    rw [init_snd p t hfac hcol, applyContribs_gdi]
    cases lastGdiValue (contribs p.userLocale p.families) q with
    | none => exact hq
    | some w => simp
  · intro q hq
    rw [init_snd p t hfac hcol, applyContribs_dw]
    cases lastDwValue (contribs p.userLocale p.families) q with
    | none => exact hq
    | some w => simp

/-- C4 witness: in the Arial scenario the last write for gdi key "Arial"
carries the modern name "Arial Black", and the table holds it. -/
theorem C4_last_write_wins_witness :
    arialPlatform.factoryFails = false ∧ arialPlatform.collectionFails = false ∧
    lastGdiValue (contribs arialPlatform.userLocale arialPlatform.families) "Arial" =
      some "Arial Black" ∧
    (init arialPlatform emptyTables).2.gdi_to_directwrite "Arial" = some "Arial Black" := by
  refine ⟨rfl, rfl, by decide, ?_⟩
  exact (C4_last_write_wins arialPlatform emptyTables "Arial" "Arial Black" rfl rfl).1
    (by decide)

/-- C9: the cross-table invariant — every value of `gdi_to_directwrite` is
a key of `directwrite_to_gdi` and conversely — is preserved by every
operation: `init` (each successful resolution inserts the swapped pair into
both tables in one step and nothing is ever removed), `cleanup`, and both
lookups. -/
theorem C9_cross_table_invariant (t : Tables) (p : Platform) (k : String) (fault : Bool)
    (h : crossInv t) :
    crossInv (init p t).2 ∧ crossInv (cleanup t) ∧
    crossInv (get_gdi_family_from_directwrite t k fault).2 ∧
    crossInv (get_directwrite_family_from_gdi t k fault).2 := by
  refine ⟨?_, h, ?_, ?_⟩
  · rw [init]
    split
    · exact h
    · split
      · exact h
      · show crossInv (initLoop p.userLocale p.families t)
        rw [initLoop_eq_applyContribs]
        exact crossInv_applyContribs _ t h
  · cases fault <;> exact h
  · cases fault <;> exact h

/-- C9 witness: the empty tables satisfy the invariant, and it is preserved
by the Arial-scenario initialization. -/
theorem C9_cross_table_invariant_witness :
    crossInv emptyTables ∧ crossInv (init arialPlatform emptyTables).2 :=
  ⟨crossInv_empty,
    (C9_cross_table_invariant emptyTables arialPlatform "Arial" false crossInv_empty).1⟩

end FontFamilyUtil
